import Mathlib

/-!
Shallow embedding of the engagement / feed / search core of the `myrail`
travel-post backend (`works/models.py`, `works/views.py`).

Conventions of the embedding:
* machine text is `List Char`; Django `icontains` becomes case-insensitive
  substring containment over lowered character lists;
* database rows are Lean lists; the `unique_together` constraints of
  `models.py` are what `get_or_create` consults (membership tests);
* denormalized counters are `Int` (the views manipulate them with
  `F('c') + 1` / `F('c') - 1` expressions, i.e. plain integer arithmetic);
* timestamps are `Int` instants; "within the last 24 hours" of
  `timezone.now() - timedelta(hours=24)` is `now - 86400 ≤ created_at`;
* each view function maps an explicit request (actor, parameters) and a
  database state to a response together with the successor state.
-/

namespace Myrail

/-- Lowercase a character list; models the case folding of `icontains`. -/
def lowerStr (s : List Char) : List Char := s.map Char.toLower

/-- `subOccurs needle hay`: does `needle` occur contiguously inside `hay`? -/
def subOccurs (needle : List Char) : List Char → Bool
  | [] => needle.isEmpty
  | c :: rest => needle.isPrefixOf (c :: rest) || subOccurs needle rest

/-- Django `field__icontains=q`: case-insensitive substring match. -/
def icontains (hay needle : List Char) : Bool :=
  subOccurs (lowerStr needle) (lowerStr hay)

/-- Python whitespace characters recognised by `str.strip()` (ASCII range). -/
def pySpace (c : Char) : Bool :=
  c = ' ' || c = '\t' || c = '\n' || c = '\x0d' || c = '\x0b' || c = '\x0c'

/-- Python `str.strip()`: drop leading and trailing whitespace. -/
def pyStrip (s : List Char) : List Char :=
  ((s.dropWhile pySpace).reverse.dropWhile pySpace).reverse

/-- `works.models.User` (the slice the reviewed views touch): primary key,
the searchable name fields, and the denormalized follow counters. -/
structure User where
  uid : Nat
  username : List Char
  first_name : List Char
  last_name : List Char
  followers_count : Int
  following_count : Int
deriving DecidableEq

/-- `works.models.Destination` (the slice `search_view` touches). -/
structure Destination where
  did : Nat
  name : List Char
  country : List Char
  city : List Char
deriving DecidableEq

/-- `works.models.TravelPost`: visibility and feature flags, the four
denormalized engagement counters, author and creation instant. -/
structure TravelPost where
  pid : Nat
  author : Nat
  description : List Char
  is_public : Bool
  featured_3d : Bool
  likes_count : Int
  comments_count : Int
  shares_count : Int
  views_count : Int
  created_at : Int
deriving DecidableEq

/-- `works.models.PostTag` (the slice `search_view` touches). -/
structure PostTag where
  tid : Nat
  name : List Char
deriving DecidableEq

/-- `works.models.UserPreference`: the content-preference flags. -/
structure UserPreference where
  user : Nat
  show_3d_content : Bool
  auto_play_videos : Bool
  show_trending : Bool
deriving DecidableEq

/-- The shared relational store.  `likes` holds `PostLike` rows as
`(user id, post id)` pairs — `unique_together ['user', 'post']`;
`follows` holds `UserFollow` rows as `(follower id, following id)` pairs —
`unique_together ['follower', 'following']`; `shares` holds `PostShare`
rows `(user id, post id, platform)` — no uniqueness constraint; `views`
holds `PostView` rows `(optional user id, post id)` — no uniqueness
constraint (the ip/user-agent/duration columns play no part in the
reviewed logic and are omitted). -/
structure DB where
  users : List User
  destinations : List Destination
  posts : List TravelPost
  tags : List PostTag
  prefs : List UserPreference
  likes : List (Nat × Nat)
  follows : List (Nat × Nat)
  shares : List (Nat × Nat × List Char)
  views : List (Option Nat × Nat)
deriving DecidableEq

/-- `TravelPost.objects.get(id=post_id, is_public=True)`. -/
def findPublicPost (posts : List TravelPost) (post_id : Nat) : Option TravelPost :=
  posts.find? (fun p => p.pid = post_id && p.is_public)

/-- `User.objects.get(id=user_id)`. -/
def findUser (users : List User) (user_id : Nat) : Option User :=
  users.find? (fun u => u.uid = user_id)

/-- Apply `f` to the post row with primary key `post_id` (the `post.save`
of a single fetched row; primary keys are unique). -/
def updPost (post_id : Nat) (f : TravelPost → TravelPost)
    (posts : List TravelPost) : List TravelPost :=
  posts.map (fun p => if p.pid = post_id then f p else p)

/-- Apply `f` to the user row with primary key `user_id`. -/
def updUser (user_id : Nat) (f : User → User) (users : List User) : List User :=
  users.map (fun u => if u.uid = user_id then f u else u)

/-- Count of `PostLike` rows referencing post `post_id`. -/
def countLikeRows (likes : List (Nat × Nat)) (post_id : Nat) : Int :=
  ((likes.filter (fun r => r.2 = post_id)).length : Int)

/-- Count of `UserFollow` rows `(a, b)`. -/
def countFollowRows (follows : List (Nat × Nat)) (a b : Nat) : Int :=
  ((follows.filter (fun r => r = (a, b))).length : Int)

/-- Count of `PostShare` rows by `u` on `post_id`. -/
def countShareRows (shares : List (Nat × Nat × List Char)) (u post_id : Nat) : Int :=
  ((shares.filter (fun r => r.1 = u && r.2.1 = post_id)).length : Int)

/-- Count of `PostView` rows referencing post `post_id`. -/
def countViewRows (views : List (Option Nat × Nat)) (post_id : Nat) : Int :=
  ((views.filter (fun r => r.2 = post_id)).length : Int)

/-- Responses of the function-based views. -/
inductive Resp where
  | notFound (msg : List Char)
  | badRequest (msg : List Char)
  | likeResult (liked : Bool) (likes_count : Int)
  | shareResult (shares_count : Int)
  | followResult (following : Bool)
deriving DecidableEq

/-- `works.views.like_post` (POST `/posts/{id}/like`, authenticated):
fetch the public post or 404; `get_or_create` the `(user, post)` like row;
on create increment `likes_count` and answer `liked=true`, otherwise
delete the row, decrement and answer `liked=false`.  The response counters
reproduce the view's stale-read arithmetic (`post.likes_count + 1`,
`max(0, post.likes_count - 1)` on the pre-update values). -/
def like_post (actor : Nat) (post_id : Nat) (db : DB) : Resp × DB :=
  match findPublicPost db.posts post_id with
  | none => (.notFound ("Post not found".toList), db)
  | some post =>
    if (actor, post_id) ∈ db.likes then
      (.likeResult false (max 0 (post.likes_count - 1)),
        { db with
          likes := db.likes.erase (actor, post_id)
          posts := updPost post_id
            (fun p => { p with likes_count := p.likes_count - 1 }) db.posts })
    else
      (.likeResult true (post.likes_count + 1),
        { db with
          likes := (actor, post_id) :: db.likes
          posts := updPost post_id
            (fun p => { p with likes_count := p.likes_count + 1 }) db.posts })

/-- `works.views.share_post` (POST `/posts/{id}/share`, authenticated):
fetch the public post or 404; unconditionally create a `PostShare` row
(`platform` defaulting to `native`) and increment `shares_count`. -/
def share_post (actor : Nat) (post_id : Nat) (platform : Option (List Char))
    (db : DB) : Resp × DB :=
  match findPublicPost db.posts post_id with
  | none => (.notFound ("Post not found".toList), db)
  | some post =>
    (.shareResult (post.shares_count + 1),
      { db with
        shares := (actor, post_id, platform.getD ("native".toList)) :: db.shares
        posts := updPost post_id
          (fun p => { p with shares_count := p.shares_count + 1 }) db.posts })

/-- `works.views.follow_user` (POST `/users/{id}/follow`, authenticated):
fetch the target or 404; reject self-follow with 400 before any mutation;
`get_or_create` the `(follower, following)` row; on create increment the
target's `followers_count` and the actor's `following_count`, otherwise
delete the row and decrement both. -/
def follow_user (actor : Nat) (user_id : Nat) (db : DB) : Resp × DB :=
  match findUser db.users user_id with
  | none => (.notFound ("User not found".toList), db)
  | some _target =>
    if user_id = actor then
      (.badRequest ("Cannot follow yourself".toList), db)
    else if (actor, user_id) ∈ db.follows then
      (.followResult false,
        { db with
          follows := db.follows.erase (actor, user_id)
          users := updUser actor
            (fun u => { u with following_count := u.following_count - 1 })
            (updUser user_id
              (fun u => { u with followers_count := u.followers_count - 1 })
              db.users) })
    else
      (.followResult true,
        { db with
          follows := (actor, user_id) :: db.follows
          users := updUser actor
            (fun u => { u with following_count := u.following_count + 1 })
            (updUser user_id
              (fun u => { u with followers_count := u.followers_count + 1 })
              db.users) })

/-- The annotated engagement score of the trending branch:
`F('likes_count') + F('comments_count') * 2 + F('shares_count') * 3`. -/
def engagement_score (p : TravelPost) : Int :=
  p.likes_count + p.comments_count * 2 + p.shares_count * 3

/-- `order_by('-engagement_score', '-created_at')` as a boolean total
preorder: `p` may precede `q` iff `p` scores strictly higher, or ties on
the score and was created no earlier. -/
def trendingLe (p q : TravelPost) : Bool :=
  engagement_score q < engagement_score p ||
    (engagement_score p = engagement_score q && q.created_at ≤ p.created_at)

/-- `order_by('-created_at')` (the model's default ordering and the
`ordering = ['-created_at']` attribute) as a boolean total preorder. -/
def createdLe (p q : TravelPost) : Bool :=
  q.created_at ≤ p.created_at

/-- Insert a post into a list sorted by the total preorder `le`. -/
def insertSorted (le : TravelPost → TravelPost → Bool) (p : TravelPost) :
    List TravelPost → List TravelPost
  | [] => [p]
  | q :: rest =>
    if le p q then p :: q :: rest else q :: insertSorted le p rest

/-- A stable sort of the row list by the total preorder `le`; models the
SQL `ORDER BY` applied to a queryset. -/
def sortPosts (le : TravelPost → TravelPost → Bool) :
    List TravelPost → List TravelPost
  | [] => []
  | p :: rest => insertSorted le p (sortPosts le rest)

/-- `works.views.TravelPostListView.get_queryset` (GET `/posts/`):
base queryset `TravelPost.objects.filter(is_public=True)`; then the feed
branch on `request.query_params.get('feed', 'latest')`:
`trending` keeps only posts with `created_at ≥ now - 24h` and orders by
`(-engagement_score, -created_at)`; `following` (authenticated viewers
only) keeps posts whose author the viewer follows; `3d` keeps
`featured_3d` posts; anything else (including the `latest` default) adds
no filter.  Branches other than `trending` carry the view's
`-created_at` ordering.  The optional `user` / `destination` / `tags`
query-parameter filters are absent from the requests the claims quantify
over and are not modelled. -/
def travelPostList_queryset (viewer : Option Nat) (feedp : Option (List Char))
    (now : Int) (db : DB) : List TravelPost :=
  let queryset := db.posts.filter (fun p => p.is_public)
  let feed_type := feedp.getD ("latest".toList)
  if feed_type = ("trending".toList) then
    sortPosts trendingLe (queryset.filter (fun p => now - 86400 ≤ p.created_at))
  else if feed_type = ("following".toList) && viewer.isSome then
    let following_users := (db.follows.filter (fun r => some r.1 = viewer)).map
      (fun r => r.2)
    sortPosts createdLe (queryset.filter (fun p => following_users.contains p.author))
  else if feed_type = ("3d".toList) then
    sortPosts createdLe (queryset.filter (fun p => p.featured_3d))
  else
    sortPosts createdLe queryset

/-- `works.views.feed_view` (GET `/feed`):
`page_size = min(int(request.GET.get('page_size', 10)), 20)`; the
queryset is the public posts, additionally filtered to
`featured_3d=False` when the authenticated viewer's `UserPreference` row
exists and has `show_3d_content` off (a missing preference row — the
`DoesNotExist` branch — filters nothing); the page is
`queryset[offset : offset + page_size]` under the model's `-created_at`
ordering, and `has_next` is `len(posts) == page_size`.  `feedQueryset` is
the queryset-selection step, `feed_view` the slicing and response. -/
def feedQueryset (viewer : Option Nat) (db : DB) : List TravelPost :=
  let queryset := db.posts.filter (fun p => p.is_public)
  match viewer with
  | some u =>
    match db.prefs.find? (fun pr : UserPreference => pr.user = u) with
    | some pr =>
      if pr.show_3d_content then queryset
      else queryset.filter (fun p => p.featured_3d = false)
    | none => queryset
  | none => queryset

def feed_view (viewer : Option Nat) (page_sizep : Option Int) (offset : Nat)
    (db : DB) : List TravelPost × Bool :=
  let page_size : Int := min (page_sizep.getD 10) 20
  let page := ((sortPosts createdLe (feedQueryset viewer db)).drop
    offset).take page_size.toNat
  (page, (page.length : Int) == page_size)

/-- Responses of `works.views.search_view`. -/
inductive SearchResp where
  | error (msg : List Char)
  | ok (users : List User) (dests : List Destination)
      (posts : List TravelPost) (tags : List PostTag)
deriving DecidableEq

/-- `works.views.search_view` (GET `/search`): strip the `q` parameter;
an empty result is a 400 validation error computed before any entity
lookup; otherwise four independently capped (`[:10]`) lists — users by
username/first/last name, destinations by name/country/city, public
posts by description or author username, tags by name with `#` removed
from the query. -/
def search_view (q : List Char) (db : DB) : SearchResp :=
  let query := pyStrip q
  if query.isEmpty then .error ("Query parameter required".toList)
  else
    .ok
      ((db.users.filter (fun u =>
        icontains u.username query || icontains u.first_name query ||
          icontains u.last_name query)).take 10)
      ((db.destinations.filter (fun d =>
        icontains d.name query || icontains d.country query ||
          icontains d.city query)).take 10)
      ((db.posts.filter (fun p =>
        p.is_public &&
          (icontains p.description query ||
            (match findUser db.users p.author with
             | some u => icontains u.username query
             | none => false)))).take 10)
      ((db.tags.filter (fun t =>
        icontains t.name (query.filter (fun c => c ≠ '#')))).take 10)

/-- `works.views.TravelPostDetailView.get_object` (GET `/posts/{id}`):
fetch the public post (404 leaves the store untouched); track the view —
authenticated viewers via `get_or_create` on `(user, post)` (no row is
added when one exists), anonymous viewers via an unconditional `create` —
then increment `views_count` by one. -/
def travelPostDetail_get_object (viewer : Option Nat) (post_id : Nat)
    (db : DB) : Option TravelPost × DB :=
  match findPublicPost db.posts post_id with
  | none => (none, db)
  | some post =>
    (some post,
      { db with
        views :=
          match viewer with
          | some u =>
            if (some u, post_id) ∈ db.views then db.views
            else (some u, post_id) :: db.views
          | none => (none, post_id) :: db.views
        posts := updPost post_id
          (fun p => { p with views_count := p.views_count + 1 }) db.posts })

/-- A finite sequence of like-toggle requests `(actor, post id)`, applied
left to right through `like_post`. -/
def applyLikeToggles (ops : List (Nat × Nat)) (db : DB) : DB :=
  ops.foldl (fun s op => (like_post op.1 op.2 s).2) db

/-- `n` successive `share_post` requests by the same actor on the same post. -/
def applyShares (actor post_id : Nat) (platform : Option (List Char)) :
    Nat → DB → DB
  | 0, db => db
  | n + 1, db => applyShares actor post_id platform n
      (share_post actor post_id platform db).2

/-- The spec's counter invariant for one post id: every post row carrying
this id has `likes_count` equal to the number of `PostLike` rows
referencing the id. -/
def likesInvariant (db : DB) (post_id : Nat) : Prop :=
  ∀ p ∈ db.posts, p.pid = post_id → p.likes_count = countLikeRows db.likes post_id

instance (db : DB) (post_id : Nat) : Decidable (likesInvariant db post_id) :=
  inferInstanceAs (Decidable (∀ p ∈ db.posts, p.pid = post_id →
    p.likes_count = countLikeRows db.likes post_id))

/-- Read the denormalized `followers_count` of the user with primary key
`uid` (`none` when no such user exists). -/
def followersCountOf (users : List User) (uid : Nat) : Option Int :=
  (findUser users uid).map (fun u => u.followers_count)

/-- Read the denormalized `shares_count` of the public post `post_id`. -/
def sharesCountOf (posts : List TravelPost) (post_id : Nat) : Option Int :=
  (findPublicPost posts post_id).map (fun p => p.shares_count)

/-- Read the denormalized `views_count` of the public post `post_id`. -/
def viewsCountOf (posts : List TravelPost) (post_id : Nat) : Option Int :=
  (findPublicPost posts post_id).map (fun p => p.views_count)

/-- Concrete fixtures used to instantiate the theorems. -/
def demoUserA : User := ⟨0, ("alice".toList), [], [], 0, 0⟩

def demoUserB : User := ⟨1, ("bob".toList), [], [], 0, 0⟩

def demoDest : Destination := ⟨0, ("Tokyo".toList), ("Japan".toList), []⟩

def demoPost : TravelPost :=
  ⟨1, 0, ("a day in tokyo".toList), true, false, 0, 0, 0, 0, 100⟩

def demoPost3d : TravelPost :=
  ⟨2, 0, ("osaka in 3d".toList), true, true, 0, 0, 0, 0, 90⟩

def demoTag : PostTag := ⟨0, ("travel".toList)⟩

/-- Preference row of user 7 with 3D content switched off. -/
def demoPref7 : UserPreference := ⟨7, false, true, true⟩

def demoDB : DB :=
  ⟨[demoUserA, demoUserB], [demoDest], [demoPost, demoPost3d], [demoTag],
    [demoPref7], [], [], [], []⟩

/-- `demoDB` after user 5 has liked post 1 (consistent counters). -/
def likedDB : DB :=
  ⟨[demoUserA, demoUserB], [demoDest],
    [{ demoPost with likes_count := 1 }, demoPost3d], [demoTag], [demoPref7],
    [(5, 1)], [], [], []⟩

/-- A featureless public post, used to populate a 45-post store. -/
def simplePost (i : Nat) : TravelPost :=
  ⟨i, 0, [], true, false, 0, 0, 0, 0, (i : Int)⟩

/-- A store holding exactly 45 public posts and nothing else. -/
def dbWith45Posts : DB :=
  ⟨[], [], (List.range 45).map simplePost, [], [], [], [], [], []⟩

/-! ## Helper lemmas -/

theorem countLikeRows_cons (a : Nat × Nat) (likes : List (Nat × Nat)) (pid : Nat) :
    countLikeRows (a :: likes) pid =
      countLikeRows likes pid + (if a.2 = pid then 1 else 0) := by
  by_cases h : a.2 = pid <;> simp [countLikeRows, List.filter_cons, h]

theorem countLikeRows_perm {l l' : List (Nat × Nat)} (h : l.Perm l') (pid : Nat) :
    countLikeRows l pid = countLikeRows l' pid := by
  simp [countLikeRows, (h.filter _).length_eq]

theorem pairPermConsErase {a : Nat × Nat} :
    ∀ {l : List (Nat × Nat)}, a ∈ l → l.Perm (a :: l.erase a)
  | [], h => absurd h (List.not_mem_nil a)
  | b :: t, h => by
    by_cases hba : b = a
    · subst hba; rw [List.erase_cons_head]
    · have ht : a ∈ t := by
        cases List.mem_cons.mp h with
        | inl h1 => exact absurd h1.symm hba
        | inr h2 => exact h2
      rw [List.erase_cons_tail (by simp [hba])]
      exact ((pairPermConsErase ht).cons b).trans (List.Perm.swap a b _)

theorem countLikeRows_erase {a : Nat × Nat} {likes : List (Nat × Nat)}
    (h : a ∈ likes) (pid : Nat) :
    countLikeRows (likes.erase a) pid =
      countLikeRows likes pid - (if a.2 = pid then 1 else 0) := by
  have hp := countLikeRows_perm (pairPermConsErase h) pid
  rw [countLikeRows_cons] at hp
  by_cases h2 : a.2 = pid <;> simp [h2] at hp ⊢ <;> omega

theorem findPublicPost_updPost (posts : List TravelPost) (pid pid' : Nat)
    (f : TravelPost → TravelPost)
    (hpid : ∀ p, (f p).pid = p.pid) (hpub : ∀ p, (f p).is_public = p.is_public) :
    findPublicPost (updPost pid' f posts) pid =
      (findPublicPost posts pid).map
        (fun p => if p.pid = pid' then f p else p) := by
  unfold findPublicPost updPost
  rw [List.find?_map]
  have hfun : ((fun p : TravelPost => decide (p.pid = pid) && p.is_public) ∘
      fun p => if p.pid = pid' then f p else p)
      = fun p : TravelPost => decide (p.pid = pid) && p.is_public := by
    funext p
    by_cases h : p.pid = pid' <;> simp [Function.comp, h, hpid, hpub]
  rw [hfun]

theorem findUser_updUser (users : List User) (uid uid' : Nat)
    (f : User → User) (hid : ∀ u, (f u).uid = u.uid) :
    findUser (updUser uid' f users) uid =
      (findUser users uid).map (fun u => if u.uid = uid' then f u else u) := by
  unfold findUser updUser
  rw [List.find?_map]
  have hfun : ((fun u : User => decide (u.uid = uid)) ∘
      fun u => if u.uid = uid' then f u else u)
      = fun u : User => decide (u.uid = uid) := by
    funext u
    by_cases h : u.uid = uid' <;> simp [Function.comp, h, hid]
  rw [hfun]

theorem insertSorted_perm (le : TravelPost → TravelPost → Bool)
    (p : TravelPost) :
    ∀ l : List TravelPost, (insertSorted le p l).Perm (p :: l)
  | [] => List.Perm.refl _
  | q :: rest => by
    unfold insertSorted
    by_cases h : le p q = true
    · rw [if_pos h]
    · rw [if_neg h]
      exact ((insertSorted_perm le p rest).cons q).trans
        (List.Perm.swap p q rest)

theorem sortPosts_perm (le : TravelPost → TravelPost → Bool) :
    ∀ l : List TravelPost, (sortPosts le l).Perm l
  | [] => List.Perm.refl _
  | p :: rest =>
    (insertSorted_perm le p (sortPosts le rest)).trans
      ((sortPosts_perm le rest).cons p)

theorem pairwise_insertSorted (le : TravelPost → TravelPost → Bool)
    (htrans : ∀ a b c, le a b = true → le b c = true → le a c = true)
    (htotal : ∀ a b, le a b = true ∨ le b a = true) (p : TravelPost) :
    ∀ l : List TravelPost, l.Pairwise (fun a b => le a b = true) →
      (insertSorted le p l).Pairwise (fun a b => le a b = true)
  | [], _ => by simp [insertSorted]
  | q :: rest, h => by
    rw [List.pairwise_cons] at h
    obtain ⟨hq, hrest⟩ := h
    unfold insertSorted
    by_cases hpq : le p q = true
    · rw [if_pos hpq]
      refine List.Pairwise.cons ?_ (List.Pairwise.cons hq hrest)
      intro b hb
      rcases List.mem_cons.mp hb with rfl | hb2
      · exact hpq
      · exact htrans p q b hpq (hq b hb2)
    · rw [if_neg hpq]
      refine List.Pairwise.cons ?_
        (pairwise_insertSorted le htrans htotal p rest hrest)
      intro b hb
      have hb' := (insertSorted_perm le p rest).mem_iff.mp hb
      rcases List.mem_cons.mp hb' with hb1 | hb2
      · rcases htotal p q with h1 | h1
        · exact absurd h1 hpq
        · rw [hb1]; exact h1
      · exact hq b hb2

theorem pairwise_sortPosts (le : TravelPost → TravelPost → Bool)
    (htrans : ∀ a b c, le a b = true → le b c = true → le a c = true)
    (htotal : ∀ a b, le a b = true ∨ le b a = true) :
    ∀ l : List TravelPost, (sortPosts le l).Pairwise (fun a b => le a b = true)
  | [] => by simp [sortPosts]
  | p :: rest =>
    pairwise_insertSorted le htrans htotal p _
      (pairwise_sortPosts le htrans htotal rest)

theorem trendingLe_trans (a b c : TravelPost) (h1 : trendingLe a b = true)
    (h2 : trendingLe b c = true) : trendingLe a c = true := by
  simp only [trendingLe, Bool.or_eq_true, Bool.and_eq_true,
    decide_eq_true_eq] at *
  omega

theorem trendingLe_total (a b : TravelPost) :
    trendingLe a b = true ∨ trendingLe b a = true := by
  simp only [trendingLe, Bool.or_eq_true, Bool.and_eq_true,
    decide_eq_true_eq]
  omega

/-! ## Claims -/

theorem likesInvariant_step (db : DB) (post_id : Nat) (a t : Nat)
    (h : likesInvariant db post_id) :
    likesInvariant (like_post a t db).2 post_id := by
  unfold like_post
  cases hf : findPublicPost db.posts t with
  | none => simpa using h
  | some post =>
    by_cases hmem : (a, t) ∈ db.likes
    · simp only [if_pos hmem]
      intro p hp hpid
      simp only [updPost, List.mem_map] at hp
      obtain ⟨q, hq, hpq⟩ := hp
      rw [countLikeRows_erase hmem]
      by_cases hqt : q.pid = t
      · rw [if_pos hqt] at hpq
        subst hpq
        have ht : t = post_id := by rw [← hqt]; exact hpid
        have hcount := h q hq (by rw [hqt, ht])
        simp only [ht, if_pos rfl]
        show q.likes_count - 1 = countLikeRows db.likes post_id - 1
        omega
      · rw [if_neg hqt] at hpq
        subst hpq
        have hne : t ≠ post_id := fun he => hqt (by rw [he]; exact hpid)
        have hcount := h q hq hpid
        simp [hne, hcount]
    · simp only [if_neg hmem]
      intro p hp hpid
      simp only [updPost, List.mem_map] at hp
      obtain ⟨q, hq, hpq⟩ := hp
      rw [countLikeRows_cons]
      by_cases hqt : q.pid = t
      · rw [if_pos hqt] at hpq
        subst hpq
        have ht : t = post_id := by rw [← hqt]; exact hpid
        have hcount := h q hq (by rw [hqt, ht])
        simp only [ht, if_pos rfl]
        show q.likes_count + 1 = countLikeRows db.likes post_id + 1
        omega
      · rw [if_neg hqt] at hpq
        subst hpq
        have hne : t ≠ post_id := fun he => hqt (by rw [he]; exact hpid)
        have hcount := h q hq hpid
        simp [hne, hcount]

/-- C1: starting from any state in which post `post_id`'s denormalized
`likes_count` equals the number of `PostLike` rows referencing it, any
finite sequence of like-toggle requests (any actors, any targets,
including repeats and unknown posts) preserves that equality. -/
theorem likes_count_matches_rows (db : DB) (post_id : Nat)
    (ops : List (Nat × Nat)) (h : likesInvariant db post_id) :
    likesInvariant (applyLikeToggles ops db) post_id := by
  induction ops generalizing db with
  | nil => simpa [applyLikeToggles] using h
  | cons op rest ih =>
    show likesInvariant (applyLikeToggles rest (like_post op.1 op.2 db).2) post_id
    exact ih _ (likesInvariant_step db post_id op.1 op.2 h)

/-- C1 witness: the invariant holds for post 1 of the demo store and
survives the toggle sequence like(5,1); like(6,1); unlike(5,1). -/
theorem likes_count_matches_rows_witness :
    likesInvariant demoDB 1 ∧
      likesInvariant (applyLikeToggles [(5, 1), (6, 1), (5, 1)] demoDB) 1 :=
  ⟨by decide, likes_count_matches_rows demoDB 1 [(5, 1), (6, 1), (5, 1)] (by decide)⟩

theorem updPost_comp (pid : Nat) (f g : TravelPost → TravelPost)
    (posts : List TravelPost) (hg : ∀ p, (g p).pid = p.pid) :
    updPost pid f (updPost pid g posts) =
      updPost pid (fun p => f (g p)) posts := by
  unfold updPost
  rw [List.map_map]
  congr 1
  funext p
  by_cases h : p.pid = pid <;> simp [Function.comp, h, hg]

theorem updPost_likes_inc_dec (pid : Nat) (posts : List TravelPost) :
    updPost pid (fun p => { p with likes_count := p.likes_count + 1 })
      (updPost pid (fun p => { p with likes_count := p.likes_count - 1 })
        posts) = posts := by
  rw [updPost_comp pid (fun p => { p with likes_count := p.likes_count + 1 })
    (fun p => { p with likes_count := p.likes_count - 1 }) posts (fun p => rfl)]
  unfold updPost
  apply List.map_id''
  intro p
  by_cases h : p.pid = pid
  · rw [if_pos h]
    rcases p with ⟨pd, au, de, pub, f3, lc, cc, sc, vc, ca⟩
    simp [Int.sub_add_cancel]
  · rw [if_neg h]

theorem updPost_likes_dec_inc (pid : Nat) (posts : List TravelPost) :
    updPost pid (fun p => { p with likes_count := p.likes_count - 1 })
      (updPost pid (fun p => { p with likes_count := p.likes_count + 1 })
        posts) = posts := by
  rw [updPost_comp pid (fun p => { p with likes_count := p.likes_count - 1 })
    (fun p => { p with likes_count := p.likes_count + 1 }) posts (fun p => rfl)]
  unfold updPost
  apply List.map_id''
  intro p
  by_cases h : p.pid = pid
  · rw [if_pos h]
    rcases p with ⟨pd, au, de, pub, f3, lc, cc, sc, vc, ca⟩
    simp [Int.add_sub_cancel]
  · rw [if_neg h]

theorem like_toggle_twice (db : DB) (u pid : Nat) (hnd : db.likes.Nodup) :
    ((u, pid) ∈ ((like_post u pid (like_post u pid db).2).2).likes ↔
        (u, pid) ∈ db.likes) ∧
      ((like_post u pid (like_post u pid db).2).2).posts = db.posts := by
  cases hf : findPublicPost db.posts pid with
  | none => simp [like_post, hf]
  | some post =>
    by_cases hm : (u, pid) ∈ db.likes
    · have e1 : (like_post u pid db).2 =
          { db with
            likes := db.likes.erase (u, pid)
            posts := updPost pid
              (fun p => { p with likes_count := p.likes_count - 1 }) db.posts } := by
        simp [like_post, hf, hm]
      rw [e1]
      have hf2 := findPublicPost_updPost db.posts pid pid
        (fun p => { p with likes_count := p.likes_count - 1 })
        (fun p => rfl) (fun p => rfl)
      rw [hf] at hf2
      have hm2 : (u, pid) ∉ db.likes.erase (u, pid) := hnd.not_mem_erase
      have e2 : (like_post u pid
          { db with
            likes := db.likes.erase (u, pid)
            posts := updPost pid
              (fun p => { p with likes_count := p.likes_count - 1 })
              db.posts }).2 =
          { db with
            likes := (u, pid) :: db.likes.erase (u, pid)
            posts := updPost pid
              (fun p => { p with likes_count := p.likes_count + 1 })
              (updPost pid
                (fun p => { p with likes_count := p.likes_count - 1 })
                db.posts) } := by
        simp [like_post, hf2, hm2]
      rw [e2]
      exact ⟨by simp [hm], updPost_likes_inc_dec pid db.posts⟩
    · have e1 : (like_post u pid db).2 =
          { db with
            likes := (u, pid) :: db.likes
            posts := updPost pid
              (fun p => { p with likes_count := p.likes_count + 1 }) db.posts } := by
        simp [like_post, hf, hm]
      rw [e1]
      have hf2 := findPublicPost_updPost db.posts pid pid
        (fun p => { p with likes_count := p.likes_count + 1 })
        (fun p => rfl) (fun p => rfl)
      rw [hf] at hf2
      have hm2 : (u, pid) ∈ (u, pid) :: db.likes := List.mem_cons_self _ _
      have e2 : (like_post u pid
          { db with
            likes := (u, pid) :: db.likes
            posts := updPost pid
              (fun p => { p with likes_count := p.likes_count + 1 })
              db.posts }).2 =
          { db with
            likes := ((u, pid) :: db.likes).erase (u, pid)
            posts := updPost pid
              (fun p => { p with likes_count := p.likes_count - 1 })
              (updPost pid
                (fun p => { p with likes_count := p.likes_count + 1 })
                db.posts) } := by
        simp [like_post, hf2, hm2]
      rw [e2]
      exact ⟨by simp [hm], updPost_likes_dec_inc pid db.posts⟩

theorem updUser_follow_dec_inc (users : List User) (u t : Nat) :
    updUser u (fun w => { w with following_count := w.following_count + 1 })
      (updUser t (fun w => { w with followers_count := w.followers_count + 1 })
        (updUser u (fun w => { w with following_count := w.following_count - 1 })
          (updUser t (fun w => { w with followers_count := w.followers_count - 1 })
            users))) = users := by
  unfold updUser
  simp only [List.map_map]
  apply List.map_id''
  intro w
  rcases w with ⟨wid, un, fn, ln, fc, gc⟩
  by_cases h3 : t = u
  · subst h3
    by_cases h1 : wid = t <;>
      simp [Function.comp, h1, Int.sub_add_cancel, Int.add_sub_cancel]
  · by_cases h1 : wid = t
    · subst h1
      simp [Function.comp, h3, Int.sub_add_cancel, Int.add_sub_cancel]
    · by_cases h2 : wid = u
      · subst h2
        simp [Function.comp, h1, Int.sub_add_cancel, Int.add_sub_cancel]
      · simp [Function.comp, h1, h2]

theorem updUser_follow_inc_dec (users : List User) (u t : Nat) :
    updUser u (fun w => { w with following_count := w.following_count - 1 })
      (updUser t (fun w => { w with followers_count := w.followers_count - 1 })
        (updUser u (fun w => { w with following_count := w.following_count + 1 })
          (updUser t (fun w => { w with followers_count := w.followers_count + 1 })
            users))) = users := by
  unfold updUser
  simp only [List.map_map]
  apply List.map_id''
  intro w
  rcases w with ⟨wid, un, fn, ln, fc, gc⟩
  by_cases h3 : t = u
  · subst h3
    by_cases h1 : wid = t <;>
      simp [Function.comp, h1, Int.sub_add_cancel, Int.add_sub_cancel]
  · by_cases h1 : wid = t
    · subst h1
      simp [Function.comp, h3, Int.sub_add_cancel, Int.add_sub_cancel]
    · by_cases h2 : wid = u
      · subst h2
        simp [Function.comp, h1, Int.sub_add_cancel, Int.add_sub_cancel]
      · simp [Function.comp, h1, h2]

theorem follow_toggle_twice (db : DB) (u t : Nat) (hnd : db.follows.Nodup) :
    ((u, t) ∈ ((follow_user u t (follow_user u t db).2).2).follows ↔
        (u, t) ∈ db.follows) ∧
      ((follow_user u t (follow_user u t db).2).2).users = db.users := by
  cases hf : findUser db.users t with
  | none => simp [follow_user, hf]
  | some target =>
    by_cases htu : t = u
    · subst htu
      simp [follow_user, hf]
    · by_cases hm : (u, t) ∈ db.follows
      · have e1 : (follow_user u t db).2 =
            { db with
              follows := db.follows.erase (u, t)
              users := updUser u
                (fun w => { w with following_count := w.following_count - 1 })
                (updUser t
                  (fun w => { w with followers_count := w.followers_count - 1 })
                  db.users) } := by
          simp [follow_user, hf, htu, hm]
        rw [e1]
        have hm2 : (u, t) ∉ db.follows.erase (u, t) := hnd.not_mem_erase
        have e2 : (follow_user u t
            { db with
              follows := db.follows.erase (u, t)
              users := updUser u
                (fun w => { w with following_count := w.following_count - 1 })
                (updUser t
                  (fun w => { w with followers_count := w.followers_count - 1 })
                  db.users) }).2 =
            { db with
              follows := (u, t) :: db.follows.erase (u, t)
              users := updUser u
                (fun w => { w with following_count := w.following_count + 1 })
                (updUser t
                  (fun w => { w with followers_count := w.followers_count + 1 })
                  (updUser u
                    (fun w => { w with following_count := w.following_count - 1 })
                    (updUser t
                      (fun w => { w with followers_count := w.followers_count - 1 })
                      db.users))) } := by
          simp [follow_user, findUser_updUser, hf, htu, hm2]
        rw [e2]
        exact ⟨by simp [hm], updUser_follow_dec_inc db.users u t⟩
      · have e1 : (follow_user u t db).2 =
            { db with
              follows := (u, t) :: db.follows
              users := updUser u
                (fun w => { w with following_count := w.following_count + 1 })
                (updUser t
                  (fun w => { w with followers_count := w.followers_count + 1 })
                  db.users) } := by
          simp [follow_user, hf, htu, hm]
        rw [e1]
        have hm2 : (u, t) ∈ (u, t) :: db.follows := List.mem_cons_self _ _
        have e2 : (follow_user u t
            { db with
              follows := (u, t) :: db.follows
              users := updUser u
                (fun w => { w with following_count := w.following_count + 1 })
                (updUser t
                  (fun w => { w with followers_count := w.followers_count + 1 })
                  db.users) }).2 =
            { db with
              follows := ((u, t) :: db.follows).erase (u, t)
              users := updUser u
                (fun w => { w with following_count := w.following_count - 1 })
                (updUser t
                  (fun w => { w with followers_count := w.followers_count - 1 })
                  (updUser u
                    (fun w => { w with following_count := w.following_count + 1 })
                    (updUser t
                      (fun w => { w with followers_count := w.followers_count + 1 })
                      db.users))) } := by
          simp [follow_user, findUser_updUser, hf, htu, hm2]
        rw [e2]
        exact ⟨by simp [hm], updUser_follow_inc_dec db.users u t⟩

/-- C2 counterexample: the claim asserts a double toggle always leaves
the relation absent.  In `likedDB` user 5 already likes post 1; after two
like-toggle calls the `(5, 1)` like row is present again, so the double
toggle does not force the absent state. -/
theorem toggle_twice_absent_cex :
    (5, 1) ∈ ((like_post 5 1 (like_post 5 1 likedDB).2).2).likes := by decide

/-- C2 (amended): under the uniqueness constraints of `PostLike` and
`UserFollow` (no duplicate rows), toggling twice restores the relation
state to its value before the first toggle — in particular to `absent`
when it started absent — and restores every affected counter: the post
table is unchanged after a double like-toggle and the user table is
unchanged after a double follow-toggle. -/
theorem toggle_twice_restores (db : DB) (u pid t : Nat)
    (hndl : db.likes.Nodup) (hndf : db.follows.Nodup) :
    (((u, pid) ∈ ((like_post u pid (like_post u pid db).2).2).likes ↔
        (u, pid) ∈ db.likes) ∧
      ((like_post u pid (like_post u pid db).2).2).posts = db.posts) ∧
    (((u, t) ∈ ((follow_user u t (follow_user u t db).2).2).follows ↔
        (u, t) ∈ db.follows) ∧
      ((follow_user u t (follow_user u t db).2).2).users = db.users) :=
  ⟨like_toggle_twice db u pid hndl, follow_toggle_twice db u t hndf⟩

/-- C2 witness: concrete instantiation in `likedDB` (user 5 already
likes post 1; user 5 double-toggles a follow of user 0). -/
theorem toggle_twice_restores_witness :
    likedDB.likes.Nodup ∧ likedDB.follows.Nodup ∧
      ((((5, 1) ∈ ((like_post 5 1 (like_post 5 1 likedDB).2).2).likes ↔
          (5, 1) ∈ likedDB.likes) ∧
        ((like_post 5 1 (like_post 5 1 likedDB).2).2).posts = likedDB.posts) ∧
      (((5, 0) ∈ ((follow_user 5 0 (follow_user 5 0 likedDB).2).2).follows ↔
          (5, 0) ∈ likedDB.follows) ∧
        ((follow_user 5 0 (follow_user 5 0 likedDB).2).2).users = likedDB.users)) :=
  ⟨by decide, by decide, toggle_twice_restores likedDB 5 1 0 (by decide) (by decide)⟩

theorem countFollowRows_cons (x : Nat × Nat) (l : List (Nat × Nat)) (a b : Nat) :
    countFollowRows (x :: l) a b =
      countFollowRows l a b + (if x = (a, b) then 1 else 0) := by
  by_cases h : x = (a, b) <;> simp [countFollowRows, List.filter_cons, h]

theorem countFollowRows_eq_zero {l : List (Nat × Nat)} {a b : Nat}
    (h : (a, b) ∉ l) : countFollowRows l a b = 0 := by
  have : l.filter (fun r => r = (a, b)) = [] := by
    rw [List.filter_eq_nil_iff]
    intro r hr
    simp only [decide_eq_true_eq]
    exact fun he => h (he ▸ hr)
  simp [countFollowRows, this]

/-- C4 counterexample: in the demo store account 0 does not follow
account 1; after two follow calls there is no `(0, 1)` Follow row at all
and account 1's `followers_count` is back at 0 — not "exactly one row,
incremented exactly once" as the claim predicts for the duplicate call. -/
theorem follow_twice_cex :
    countFollowRows
        ((follow_user 0 1 (follow_user 0 1 demoDB).2).2).follows 0 1 = 0 ∧
      followersCountOf ((follow_user 0 1 (follow_user 0 1 demoDB).2).2).users 1 =
        some 0 := by decide

/-- C4 (amended): the second identical follow call is an unfollow.  From
any state where B exists, A ≠ B and A does not follow B, the first call
leaves exactly one `(A, B)` Follow row and increments B's
`followers_count` exactly once; the second call deletes that row and
decrements the counter, leaving the follow and user tables exactly as
they started (so no duplicate row or double increment ever exists). -/
theorem follow_twice_amended (db : DB) (a b : Nat) (hab : b ≠ a)
    (hfound : (findUser db.users b).isSome)
    (habs : (a, b) ∉ db.follows) :
    countFollowRows ((follow_user a b db).2).follows a b = 1 ∧
      followersCountOf ((follow_user a b db).2).users b =
        (followersCountOf db.users b).map (fun c => c + 1) ∧
      ((follow_user a b (follow_user a b db).2).2).follows = db.follows ∧
      ((follow_user a b (follow_user a b db).2).2).users = db.users := by
  cases hf : findUser db.users b with
  | none => rw [hf] at hfound; simp at hfound
  | some target =>
    have e1 : (follow_user a b db).2 =
        { db with
          follows := (a, b) :: db.follows
          users := updUser a
            (fun w => { w with following_count := w.following_count + 1 })
            (updUser b
              (fun w => { w with followers_count := w.followers_count + 1 })
              db.users) } := by
      simp [follow_user, hf, hab, habs]
    have htid : target.uid = b := by
      have := List.find?_some hf
      simpa using this
    refine ⟨?_, ?_, ?_, ?_⟩
    · rw [e1]
      show countFollowRows ((a, b) :: db.follows) a b = 1
      rw [countFollowRows_cons, countFollowRows_eq_zero habs]
      simp
    · rw [e1]
      show followersCountOf (updUser a _ (updUser b _ db.users)) b = _
      unfold followersCountOf
      rw [findUser_updUser _ b a
          (fun w => { w with following_count := w.following_count + 1 })
          (fun w => rfl),
        findUser_updUser _ b b
          (fun w => { w with followers_count := w.followers_count + 1 })
          (fun w => rfl), hf]
      simp [htid, hab]
    · rw [e1]
      have e2 : (follow_user a b
          { db with
            follows := (a, b) :: db.follows
            users := updUser a
              (fun w => { w with following_count := w.following_count + 1 })
              (updUser b
                (fun w => { w with followers_count := w.followers_count + 1 })
                db.users) }).2 =
          { db with
            follows := ((a, b) :: db.follows).erase (a, b)
            users := updUser a
              (fun w => { w with following_count := w.following_count - 1 })
              (updUser b
                (fun w => { w with followers_count := w.followers_count - 1 })
                (updUser a
                  (fun w => { w with following_count := w.following_count + 1 })
                  (updUser b
                    (fun w => { w with followers_count := w.followers_count + 1 })
                    db.users))) } := by
        simp [follow_user, findUser_updUser, hf, hab, List.mem_cons_self]
      rw [e2]
      simp
    · rw [e1]
      have e2 : (follow_user a b
          { db with
            follows := (a, b) :: db.follows
            users := updUser a
              (fun w => { w with following_count := w.following_count + 1 })
              (updUser b
                (fun w => { w with followers_count := w.followers_count + 1 })
                db.users) }).2 =
          { db with
            follows := ((a, b) :: db.follows).erase (a, b)
            users := updUser a
              (fun w => { w with following_count := w.following_count - 1 })
              (updUser b
                (fun w => { w with followers_count := w.followers_count - 1 })
                (updUser a
                  (fun w => { w with following_count := w.following_count + 1 })
                  (updUser b
                    (fun w => { w with followers_count := w.followers_count + 1 })
                    db.users))) } := by
        simp [follow_user, findUser_updUser, hf, hab, List.mem_cons_self]
      rw [e2]
      exact updUser_follow_inc_dec db.users a b

/-- C4 witness: accounts 0 and 1 of the demo store. -/
theorem follow_twice_amended_witness :
    (1 : Nat) ≠ 0 ∧ (findUser demoDB.users 1).isSome ∧ (0, 1) ∉ demoDB.follows ∧
      (countFollowRows ((follow_user 0 1 demoDB).2).follows 0 1 = 1 ∧
        followersCountOf ((follow_user 0 1 demoDB).2).users 1 =
          (followersCountOf demoDB.users 1).map (fun c => c + 1) ∧
        ((follow_user 0 1 (follow_user 0 1 demoDB).2).2).follows = demoDB.follows ∧
        ((follow_user 0 1 (follow_user 0 1 demoDB).2).2).users = demoDB.users) :=
  ⟨by decide, by decide, by decide,
    follow_twice_amended demoDB 0 1 (by decide) (by decide) (by decide)⟩

/-- C3 counterexample: with 45 public posts stored, a `/feed` request
with `page_size=100` returns 20 posts and `has_next=true` — not all 45
posts with `has_next=false`; and with no `page_size` parameter the page
holds 10 posts, so the default is 10, not 20. -/
theorem feed_pagination_cex :
    (feed_view none (some 100) 0 dbWith45Posts).1.length = 20 ∧
      (feed_view none (some 100) 0 dbWith45Posts).2 = true ∧
      (feed_view none none 0 dbWith45Posts).1.length = 10 := by decide

/-- C3 (amended): for `/feed` the requested `page_size` defaults to 10
and is clamped to a maximum of 20; `has_next` is true exactly when the
returned page is completely full (its length equals the clamped page
size); in particular requesting `page_size=100` when only 45 public
posts exist returns 20 posts with `has_next=true`. -/
theorem feed_pagination_amended (viewer : Option Nat) (psp : Option Int)
    (offset : Nat) (db : DB) :
    feed_view viewer none offset db = feed_view viewer (some 10) offset db ∧
      (feed_view viewer psp offset db).1.length ≤ 20 ∧
      ((feed_view viewer psp offset db).2 = true ↔
        ((feed_view viewer psp offset db).1.length : Int) =
          min (psp.getD 10) 20) ∧
      ((feed_view none (some 100) 0 dbWith45Posts).1.length = 20 ∧
        (feed_view none (some 100) 0 dbWith45Posts).2 = true) := by
  refine ⟨rfl, ?_, ?_, by decide, by decide⟩
  · show (((sortPosts createdLe (feedQueryset viewer db)).drop offset).take
      (min (psp.getD 10) 20).toNat).length ≤ 20
    rw [List.length_take]
    omega
  · show (((((sortPosts createdLe (feedQueryset viewer db)).drop offset).take
        (min (psp.getD 10) 20).toNat).length : Int) ==
          min (psp.getD 10) 20) = true ↔ _
    exact beq_iff_eq

/-- C5: for every viewer and cursor position, the trending feed queryset
is a permutation of exactly the public posts created within the last 24
hours; it is ordered by engagement score
`likes*1 + comments*2 + shares*3` descending with ties broken by
creation time descending, and no returned post is older than 24 hours. -/
theorem trending_feed_exact (viewer : Option Nat) (now : Int) (db : DB) :
    (travelPostList_queryset viewer (some ("trending".toList)) now db).Perm
        ((db.posts.filter (fun p => p.is_public)).filter
          (fun p => now - 86400 ≤ p.created_at)) ∧
      (∀ p, p ∈ travelPostList_queryset viewer (some ("trending".toList)) now db ↔
        (p ∈ db.posts ∧ p.is_public = true ∧ now - 86400 ≤ p.created_at)) ∧
      (travelPostList_queryset viewer (some ("trending".toList)) now db).Pairwise
        (fun p q => trendingLe p q = true) ∧
      ∀ p ∈ travelPostList_queryset viewer (some ("trending".toList)) now db,
        now - 86400 ≤ p.created_at := by
  have he : travelPostList_queryset viewer (some ("trending".toList)) now db =
      sortPosts trendingLe ((db.posts.filter (fun p => p.is_public)).filter
        (fun p => now - 86400 ≤ p.created_at)) := by
    simp [travelPostList_queryset]
  rw [he]
  refine ⟨sortPosts_perm _ _, ?_,
    pairwise_sortPosts _ trendingLe_trans trendingLe_total _, ?_⟩
  · intro p
    rw [(sortPosts_perm _ _).mem_iff]
    simp [List.mem_filter]
    tauto
  · intro p hp
    rw [(sortPosts_perm _ _).mem_iff] at hp
    simp only [List.mem_filter, decide_eq_true_eq] at hp
    exact hp.2

/-- C7 counterexample: user 7's preference row disables 3D content, yet
the post-list view in `latest` mode still returns the `featured_3d`
post — `TravelPostListView.get_queryset` never consults
`UserPreference`, so the claimed exclusion fails outside `/feed`. -/
theorem latest_mode_shows_3d_cex :
    demoPref7.show_3d_content = false ∧
      demoPref7 ∈ demoDB.prefs ∧
      demoPost3d.featured_3d = true ∧
      demoPost3d ∈
        travelPostList_queryset (some 7) (some ("latest".toList)) 0 demoDB := by
  decide

/-- C7 (amended): the 3D-preference exclusion is implemented only in the
`/feed` endpoint, which applies no mode distinctions: when the
authenticated viewer's preference row exists with `show_3d_content` off,
every post `feed_view` returns has `featured_3d = false`.  The post-list
view's feed modes (`latest` included) ignore the preference. -/
theorem feed_view_respects_3d_pref (db : DB) (u : Nat)
    (pr : UserPreference) (psp : Option Int) (offset : Nat)
    (hfind : db.prefs.find? (fun x : UserPreference => x.user = u) = some pr)
    (hoff : pr.show_3d_content = false) :
    ∀ p ∈ (feed_view (some u) psp offset db).1, p.featured_3d = false := by
  intro p hp
  have hq : feedQueryset (some u) db =
      (db.posts.filter (fun p => p.is_public)).filter
        (fun p => p.featured_3d = false) := by
    simp [feedQueryset, hfind, hoff]
  have he : (feed_view (some u) psp offset db).1 =
      ((sortPosts createdLe ((db.posts.filter (fun p => p.is_public)).filter
        (fun p => p.featured_3d = false))).drop offset).take
        (min (psp.getD 10) 20).toNat := by
    show ((sortPosts createdLe (feedQueryset (some u) db)).drop offset).take
      (min (psp.getD 10) 20).toNat = _
    rw [hq]
  rw [he] at hp
  have h1 := List.mem_of_mem_take hp
  have h2 := List.mem_of_mem_drop h1
  have h3 := (sortPosts_perm _ _).mem_iff.mp h2
  simp only [List.mem_filter, decide_eq_true_eq] at h3
  exact h3.2

/-- C7 witness: viewer 7 of the demo store (3D content off) receives the
plain post through `/feed`, and the theorem certifies it is not 3D. -/
theorem feed_view_respects_3d_pref_witness :
    demoPost.featured_3d = false :=
  feed_view_respects_3d_pref demoDB 7 demoPref7 none 0 (by decide) (by decide)
    demoPost (by decide)

theorem pyStrip_eq_nil_iff (s : List Char) :
    pyStrip s = [] ↔ ∀ c ∈ s, pySpace c = true := by
  unfold pyStrip
  rw [List.reverse_eq_nil_iff, List.dropWhile_eq_nil_iff]
  constructor
  · intro h c hc
    rw [← List.takeWhile_append_dropWhile (p := pySpace) (l := s)] at hc
    rcases List.mem_append.mp hc with h1 | h2
    · exact List.mem_takeWhile_imp h1
    · exact h c (List.mem_reverse.mpr h2)
  · intro h x hx
    exact h x ((List.dropWhile_sublist _).subset (List.mem_reverse.mp hx))

/-- C8: the search endpoint answers the `Query parameter required`
validation error exactly when the query is empty or whitespace-only —
the error is decided on the stripped query before any entity list is
assembled — and every other query receives the four result lists, each
independently capped at 10. -/
theorem search_blank_query (q : List Char) (db : DB) :
    (search_view q db = .error ("Query parameter required".toList) ↔
      ∀ c ∈ q, pySpace c = true) ∧
    ((¬ ∀ c ∈ q, pySpace c = true) →
      ∃ us ds ps ts, search_view q db = .ok us ds ps ts ∧
        us.length ≤ 10 ∧ ds.length ≤ 10 ∧ ps.length ≤ 10 ∧ ts.length ≤ 10) := by
  constructor
  · simp only [search_view]
    by_cases h : pyStrip q = []
    · rw [if_pos (by simp [h])]
      exact iff_of_true rfl ((pyStrip_eq_nil_iff q).mp h)
    · rw [if_neg (by simp [List.isEmpty_iff, h])]
      exact iff_of_false (by simp)
        (fun hall => h ((pyStrip_eq_nil_iff q).mpr hall))
  · intro hn
    simp only [search_view]
    have h : ¬ pyStrip q = [] := fun he => hn ((pyStrip_eq_nil_iff q).mp he)
    rw [if_neg (by simp [List.isEmpty_iff, h])]
    exact ⟨_, _, _, _, rfl, List.length_take_le _ _, List.length_take_le _ _,
      List.length_take_le _ _, List.length_take_le _ _⟩

/-- C8 witness: the non-blank query `tokyo` on the demo store gets the
four capped lists. -/
theorem search_blank_query_witness :
    ∃ us ds ps ts, search_view ("tokyo".toList) demoDB = .ok us ds ps ts ∧
      us.length ≤ 10 ∧ ds.length ≤ 10 ∧ ps.length ≤ 10 ∧ ts.length ≤ 10 :=
  (search_blank_query ("tokyo".toList) demoDB).2 (by decide)

theorem countShareRows_cons_self (u pid : Nat) (x : List Char)
    (l : List (Nat × Nat × List Char)) :
    countShareRows ((u, pid, x) :: l) u pid = countShareRows l u pid + 1 := by
  simp [countShareRows, List.filter_cons]

/-- C9: share is not a toggle: each call appends a fresh `PostShare` row
and adds one to `shares_count` with no `(user, post)` uniqueness check,
so `n` repeated shares by the same user on the same public post grow
both the row count and the counter by exactly `n`, without bound. -/
theorem share_accumulates (db : DB) (u pid : Nat) (pl : Option (List Char))
    (n : Nat) (hfound : (findPublicPost db.posts pid).isSome) :
    countShareRows (applyShares u pid pl n db).shares u pid
        = countShareRows db.shares u pid + n ∧
      sharesCountOf (applyShares u pid pl n db).posts pid
        = (sharesCountOf db.posts pid).map (fun c => c + (n : Int)) := by
  induction n generalizing db with
  | zero =>
    refine ⟨by simp [applyShares], ?_⟩
    cases h : findPublicPost db.posts pid <;> simp [applyShares, sharesCountOf, h]
  | succ n ih =>
    cases hf : findPublicPost db.posts pid with
    | none => rw [hf] at hfound; simp at hfound
    | some post =>
      have hpp : post.pid = pid ∧ post.is_public = true := by
        simpa using List.find?_some hf
      have e1 : (share_post u pid pl db).2 =
          { db with
            shares := (u, pid, pl.getD ("native".toList)) :: db.shares
            posts := updPost pid
              (fun p => { p with shares_count := p.shares_count + 1 })
              db.posts } := by
        simp [share_post, hf]
      have hf2 := findPublicPost_updPost db.posts pid pid
        (fun p => { p with shares_count := p.shares_count + 1 })
        (fun p => rfl) (fun p => rfl)
      rw [hf] at hf2
      have step : applyShares u pid pl (n + 1) db =
          applyShares u pid pl n (share_post u pid pl db).2 := rfl
      rw [step, e1]
      have ihx := ih
        { db with
          shares := (u, pid, pl.getD ("native".toList)) :: db.shares
          posts := updPost pid
            (fun p => { p with shares_count := p.shares_count + 1 })
            db.posts }
        (by show (findPublicPost (updPost pid _ db.posts) pid).isSome
            rw [hf2]; simp)
      refine ⟨?_, ?_⟩
      · rw [ihx.1]
        show countShareRows ((u, pid, pl.getD ("native".toList)) :: db.shares)
          u pid + (n : Int) = countShareRows db.shares u pid + ((n : Int) + 1)
        rw [countShareRows_cons_self]
        omega
      · rw [ihx.2]
        show (sharesCountOf (updPost pid _ db.posts) pid).map _ = _
        unfold sharesCountOf
        rw [hf2, hf]
        simp only [Option.map_some, Option.map_map]
        simp [hpp.1, Function.comp]
        omega

/-- C9 witness: three repeated shares of post 1 by user 5. -/
theorem share_accumulates_witness :
    (findPublicPost demoDB.posts 1).isSome ∧
      (countShareRows (applyShares 5 1 none 3 demoDB).shares 5 1
          = countShareRows demoDB.shares 5 1 + 3 ∧
        sharesCountOf (applyShares 5 1 none 3 demoDB).posts 1
          = (sharesCountOf demoDB.posts 1).map (fun c => c + 3)) :=
  ⟨by decide, share_accumulates demoDB 5 1 none 3 (by decide)⟩

theorem countViewRows_cons_self (v : Option Nat) (pid : Nat)
    (l : List (Option Nat × Nat)) :
    countViewRows ((v, pid) :: l) pid = countViewRows l pid + 1 := by
  simp [countViewRows, List.filter_cons]

/-- C10: every retrieval of a public post's detail adds exactly one to
`views_count` (authenticated or anonymous); a repeat retrieval by an
authenticated viewer with an existing `(user, post)` View row creates no
new row; hence two retrievals by the same fresh authenticated viewer add
two to `views_count` but only one View row, so the counter can strictly
exceed the number of View rows. -/
theorem post_detail_view_tracking (db : DB) (u pid : Nat)
    (hfound : (findPublicPost db.posts pid).isSome) :
    (∀ viewer : Option Nat,
      viewsCountOf ((travelPostDetail_get_object viewer pid db).2).posts pid =
        (viewsCountOf db.posts pid).map (fun c => c + 1)) ∧
      ((some u, pid) ∈ db.views →
        ((travelPostDetail_get_object (some u) pid db).2).views = db.views) ∧
      ((some u, pid) ∉ db.views →
        countViewRows ((travelPostDetail_get_object (some u) pid
            ((travelPostDetail_get_object (some u) pid db).2)).2).views pid =
          countViewRows db.views pid + 1 ∧
        viewsCountOf ((travelPostDetail_get_object (some u) pid
            ((travelPostDetail_get_object (some u) pid db).2)).2).posts pid =
          (viewsCountOf db.posts pid).map (fun c => c + 2)) := by
  cases hf : findPublicPost db.posts pid with
  | none => rw [hf] at hfound; simp at hfound
  | some post =>
    have hpp : post.pid = pid ∧ post.is_public = true := by
      simpa using List.find?_some hf
    have hf2 := findPublicPost_updPost db.posts pid pid
      (fun p => { p with views_count := p.views_count + 1 })
      (fun p => rfl) (fun p => rfl)
    rw [hf] at hf2
    refine ⟨?_, ?_, ?_⟩
    · intro viewer
      have e1 : ((travelPostDetail_get_object viewer pid db).2).posts =
          updPost pid (fun p => { p with views_count := p.views_count + 1 })
            db.posts := by
        cases viewer with
        | none => simp [travelPostDetail_get_object, hf]
        | some v => simp [travelPostDetail_get_object, hf]
      rw [e1]
      unfold viewsCountOf
      rw [hf2, hf]
      simp [hpp.1]
    · intro hmem
      simp [travelPostDetail_get_object, hf, hmem]
    · intro hmem
      have e1 : (travelPostDetail_get_object (some u) pid db).2 =
          { db with
            views := (some u, pid) :: db.views
            posts := updPost pid
              (fun p => { p with views_count := p.views_count + 1 })
              db.posts } := by
        simp [travelPostDetail_get_object, hf, hmem]
      rw [e1]
      have hmem2 : (some u, pid) ∈ (some u, pid) :: db.views :=
        List.mem_cons_self _ _
      have e2 : (travelPostDetail_get_object (some u) pid
          { db with
            views := (some u, pid) :: db.views
            posts := updPost pid
              (fun p => { p with views_count := p.views_count + 1 })
              db.posts }).2 =
          { db with
            views := (some u, pid) :: db.views
            posts := updPost pid
              (fun p => { p with views_count := p.views_count + 1 })
              (updPost pid
                (fun p => { p with views_count := p.views_count + 1 })
                db.posts) } := by
        simp [travelPostDetail_get_object, hf2, hpp.1, hmem2]
      rw [e2]
      refine ⟨countViewRows_cons_self _ _ _, ?_⟩
      have hf3 := findPublicPost_updPost
        (updPost pid (fun p => { p with views_count := p.views_count + 1 })
          db.posts) pid pid
        (fun p => { p with views_count := p.views_count + 1 })
        (fun p => rfl) (fun p => rfl)
      rw [hf2] at hf3
      unfold viewsCountOf
      rw [hf3, hf]
      simp [hpp.1]
      omega

/-- C10 witness: post 1 of the demo store, viewer 5 with no prior View
row. -/
theorem post_detail_view_tracking_witness :
    (findPublicPost demoDB.posts 1).isSome ∧
      (some 5, 1) ∉ demoDB.views ∧
      (countViewRows ((travelPostDetail_get_object (some 5) 1
          ((travelPostDetail_get_object (some 5) 1 demoDB).2)).2).views 1 =
        countViewRows demoDB.views 1 + 1 ∧
      viewsCountOf ((travelPostDetail_get_object (some 5) 1
          ((travelPostDetail_get_object (some 5) 1 demoDB).2)).2).posts 1 =
        (viewsCountOf demoDB.posts 1).map (fun c => c + 2)) :=
  ⟨by decide, by decide,
    (post_detail_view_tracking demoDB 5 1 (by decide)).2.2 (by decide)⟩

/-- C3 witness: the amended pagination behaviour evaluated on the
45-post store. -/
theorem feed_pagination_amended_witness :
    (feed_view none (some 100) 0 dbWith45Posts).1.length = 20 ∧
      (feed_view none (some 100) 0 dbWith45Posts).2 = true :=
  (feed_pagination_amended none (some 100) 0 dbWith45Posts).2.2.2

/-- C5 witness: the membership characterisation of the trending feed
evaluated on the demo store at instant 100. -/
theorem trending_feed_exact_witness :
    demoPost ∈ travelPostList_queryset none (some ("trending".toList))
        100 demoDB ↔
      (demoPost ∈ demoDB.posts ∧ demoPost.is_public = true ∧
        (100 : Int) - 86400 ≤ demoPost.created_at) :=
  (trending_feed_exact none 100 demoDB).2.1 demoPost

/-- C6: for every account X and every prior follow state, a follow
request with actor X and target X is answered with the
`Cannot follow yourself` validation error before any toggle runs, and
the store — follow rows and all counters — is returned unchanged. -/
theorem follow_self_rejected (db : DB) (x : Nat)
    (h : (findUser db.users x).isSome) :
    follow_user x x db = (.badRequest ("Cannot follow yourself".toList), db) := by
  unfold follow_user
  cases hf : findUser db.users x with
  | none => rw [hf] at h; simp at h
  | some t => simp

/-- C6 witness: user 0 exists in the demo store and the self-follow
request bounces off it unchanged. -/
theorem follow_self_rejected_witness :
    (findUser demoDB.users 0).isSome ∧
      follow_user 0 0 demoDB =
        (.badRequest ("Cannot follow yourself".toList), demoDB) :=
  ⟨by decide, follow_self_rejected demoDB 0 (by decide)⟩

end Myrail
